import Mathlib

/-!
Shallow embedding of `src/main.rs` of `rustycubes`, a terminal renderer for a
rotating wireframe cube, together with proofs of the specification's claims
about it.

Modelling conventions:
* `f32` values are modelled by exact rationals `ℚ`; the concrete constants and
  cube coordinates of the program (powers of two and small integers) are exact
  in `f32`, so the claims below about concrete inputs coincide with the `f32`
  computation.
* `ax.sin()` / `ax.cos()` are modelled by explicit function parameters
  `s c : α → α` of `rotate`; claims that need trigonometry instantiate them
  with `Real.sin` / `Real.cos`, claims about angle `0` only use `s 0 = 0` and
  `c 0 = 1`, which hold for `f32` sine and cosine as well.
* the `as isize` casts truncate toward zero (`truncQ`), and `isize::clamp`
  is `clampI`.
* the Bresenham loop of `draw_line` is embedded with explicit fuel; running
  out of fuel returns `none`, so termination of the Rust loop is the theorem
  that the embedded loop returns `some` with the stated fuel.  The final
  position of the cursor is returned alongside the screen so that the exit
  condition of the loop can be stated.
* the screen buffer `vec![vec![' '; WIDTH]; HEIGHT]` is a `List (List Char)`.
-/

namespace RustyCubes

/-- `const WIDTH: usize = 80`. -/
def WIDTH : ℕ := 80

/-- `const HEIGHT: usize = 24`. -/
def HEIGHT : ℕ := 24

/-- `const CUBE_SIZE: f32 = 1.0`. -/
def CUBE_SIZE : ℚ := 1

/-- `const DISTANCE: f32 = 3.0`. -/
def DISTANCE : ℚ := 3

/-- `const SCALE: f32 = 20.0`. -/
def SCALE : ℚ := 20

/-- `struct Vec3 { x: f32, y: f32, z: f32 }`, generic over the scalar type. -/
structure Vec3 (α : Type) where
  x : α
  y : α
  z : α
  deriving DecidableEq, Repr

/-- `fn rotate(v: Vec3, ax: f32, ay: f32, az: f32) -> Vec3`: rotation around
the X, then Y, then Z axis.  The sine and cosine used by the source are the
explicit parameters `s` and `c`. -/
def rotate [Ring α] (s c : α → α) (v : Vec3 α) (ax ay az : α) : Vec3 α :=
  let sinx := s ax
  let cosx := c ax
  let v1 : Vec3 α := ⟨v.x, v.y * cosx - v.z * sinx, v.y * sinx + v.z * cosx⟩
  let siny := s ay
  let cosy := c ay
  let v2 : Vec3 α := ⟨v1.x * cosy + v1.z * siny, v1.y, -v1.x * siny + v1.z * cosy⟩
  let sinz := s az
  let cosz := c az
  ⟨v2.x * cosz - v2.y * sinz, v2.x * sinz + v2.y * cosz, v2.z⟩

/-- Truncation toward zero: the `as isize` cast of a finite float. -/
def truncQ (q : ℚ) : ℤ := q.num.tdiv q.den

/-- `isize::clamp(lo, hi)`: `if x < lo { lo } else if x > hi { hi } else { x }`. -/
def clampI (x lo hi : ℤ) : ℤ := if x < lo then lo else if x > hi then hi else x

/-- `fn project(v: Vec3) -> (usize, usize)`: perspective projection followed by
truncation and clamping into the screen rectangle. -/
def project (v : Vec3 ℚ) : ℕ × ℕ :=
  let factor := SCALE / (v.z + DISTANCE)
  let x := truncQ (v.x * factor + (WIDTH : ℚ) / 2)
  let y := truncQ (v.y * factor + (HEIGHT : ℚ) / 2)
  ((clampI x 0 ((WIDTH : ℤ) - 1)).toNat, (clampI y 0 ((HEIGHT : ℤ) - 1)).toNat)

/-- The guarded write `if x0 >= 0 && x0 < WIDTH && y0 >= 0 && y0 < HEIGHT
{ screen[y0][x0] = '#'; }` of `draw_line`. -/
def plot (screen : List (List Char)) (x y : ℤ) : List (List Char) :=
  if 0 ≤ x ∧ x < (WIDTH : ℤ) ∧ 0 ≤ y ∧ y < (HEIGHT : ℤ) then
    screen.set y.toNat ((screen.getD y.toNat []).set x.toNat '#')
  else screen

/-- The `loop { ... }` of `draw_line`, with explicit fuel.  Returns the final
screen together with the final cursor position `(x0, y0)`; returns `none` when
the fuel is exhausted before the loop breaks. -/
def bresLoop : ℕ → ℤ → ℤ → ℤ → ℤ → ℤ → ℤ → ℤ → ℤ → ℤ →
    List (List Char) → Option (List (List Char) × ℤ × ℤ)
  | 0, _, _, _, _, _, _, _, _, _, _ => none
  | fuel+1, x0, y0, x1, y1, dx, dy, sx, sy, err, screen =>
    let screen1 := plot screen x0 y0
    if x0 = x1 ∧ y0 = y1 then some (screen1, x0, y0)
    else
      let e2 := 2 * err
      let err1 := if e2 ≥ dy then err + dy else err
      let x0' := if e2 ≥ dy then x0 + sx else x0
      let err2 := if e2 ≤ dx then err1 + dx else err1
      let y0' := if e2 ≤ dx then y0 + sy else y0
      bresLoop fuel x0' y0' x1 y1 dx dy sx sy err2 screen1

/-- `fn draw_line((x0, y0): (usize, usize), (x1, y1): (usize, usize),
screen: &mut [Vec<char>])`: Bresenham setup followed by the loop.  The fuel
`dx - dy + 1` dominates the number of iterations (proved below). -/
def draw_line (p0 p1 : ℕ × ℕ) (screen : List (List Char)) :
    Option (List (List Char) × ℤ × ℤ) :=
  let x0 : ℤ := p0.1
  let y0 : ℤ := p0.2
  let x1 : ℤ := p1.1
  let y1 : ℤ := p1.2
  let dx := |x1 - x0|
  let dy := -|y1 - y0|
  let sx : ℤ := if x0 < x1 then 1 else -1
  let sy : ℤ := if y0 < y1 then 1 else -1
  let err := dx + dy
  bresLoop (dx - dy + 1).toNat x0 y0 x1 y1 dx dy sx sy err screen

/-- The 8 cube vertices of `main`. -/
def cube : List (Vec3 ℚ) :=
  [⟨-CUBE_SIZE, -CUBE_SIZE, -CUBE_SIZE⟩,
   ⟨ CUBE_SIZE, -CUBE_SIZE, -CUBE_SIZE⟩,
   ⟨ CUBE_SIZE,  CUBE_SIZE, -CUBE_SIZE⟩,
   ⟨-CUBE_SIZE,  CUBE_SIZE, -CUBE_SIZE⟩,
   ⟨-CUBE_SIZE, -CUBE_SIZE,  CUBE_SIZE⟩,
   ⟨ CUBE_SIZE, -CUBE_SIZE,  CUBE_SIZE⟩,
   ⟨ CUBE_SIZE,  CUBE_SIZE,  CUBE_SIZE⟩,
   ⟨-CUBE_SIZE,  CUBE_SIZE,  CUBE_SIZE⟩]

/-- The 12 edges of `main`. -/
def edges : List (ℕ × ℕ) :=
  [(0,1),(1,2),(2,3),(3,0),
   (4,5),(5,6),(6,7),(7,4),
   (0,4),(1,5),(2,6),(3,7)]

/-- `vec![vec![' '; WIDTH]; HEIGHT]`: the blank screen allocated each frame. -/
def blankScreen : List (List Char) := List.replicate HEIGHT (List.replicate WIDTH ' ')

/-- The edge-drawing loop of `main`: rasterize the 12 edges between the
projected vertices into a blank screen.  `pts[a]` indexing is fallible, and a
`draw_line` that runs out of fuel propagates `none`. -/
def render (pts : List (ℕ × ℕ)) : Option (List (List Char)) :=
  edges.foldlM (fun s e => do
    let pa ← pts[e.1]?
    let pb ← pts[e.2]?
    (draw_line pa pb s).map (fun r => r.1)) blankScreen

/-- The rotate-and-project stage of the per-frame pipeline of `main`:
`az = ax * 0.5 + ay * 0.5`, then each vertex is rotated and projected. -/
def projectedPts (s c : ℚ → ℚ) (ax ay : ℚ) : List (ℕ × ℕ) :=
  let az := ax * (1/2) + ay * (1/2)
  cube.map (fun v => project (rotate s c v ax ay az))

/-- One whole frame of `main` at angles `(ax, ay)`: rotate, project, rasterize. -/
def frame (s c : ℚ → ℚ) (ax ay : ℚ) : Option (List (List Char)) :=
  render (projectedPts s c ax ay)

/-- The input drain of `main`:
`while let Ok((dx, dy)) = input_rx.try_recv() { *rx += dx; *ry += dy; }`,
with the pending queue contents as a list. -/
def drainEvents (st : ℚ × ℚ) (evs : List (ℚ × ℚ)) : ℚ × ℚ :=
  evs.foldl (fun st e => (st.1 + e.1, st.2 + e.2)) st

/-- One iteration of the input thread of `spawn_input_thread`: given the byte
count `n` returned by `read` and the 3-byte buffer, the rotation-delta event
sent into the channel, if any. -/
def decode (n : ℕ) (b0 b1 b2 : ℕ) : Option (ℚ × ℚ) :=
  if n = 3 ∧ b0 = 27 ∧ b1 = 91 then
    if b2 = 65 then some (1/10, 0)
    else if b2 = 66 then some (-(1/10), 0)
    else if b2 = 67 then some (0, 1/10)
    else if b2 = 68 then some (0, -(1/10))
    else none
  else none

/-- Reading a cell of the screen buffer, blank when out of range. -/
def getCell (screen : List (List Char)) (i j : ℕ) : Char :=
  (screen.getD i []).getD j ' '

/-- The reference frame for rotation state `(0, 0)`:
the 12 edges between the projected vertices, rasterized. -/
def refGridStrings : List String :=
  ["                                                                                ",
   "                                                                                ",
   "                              #####################                             ",
   "                              ##                 ##                             ",
   "                              # #               # #                             ",
   "                              #  #             #  #                             ",
   "                              #   #           #   #                             ",
   "                              #    ###########    #                             ",
   "                              #    #         #    #                             ",
   "                              #    #         #    #                             ",
   "                              #    #         #    #                             ",
   "                              #    #         #    #                             ",
   "                              #    #         #    #                             ",
   "                              #    #         #    #                             ",
   "                              #    #         #    #                             ",
   "                              #    #         #    #                             ",
   "                              #    #         #    #                             ",
   "                              #    ###########    #                             ",
   "                              #   #           #   #                             ",
   "                              #  #             #  #                             ",
   "                              # #               # #                             ",
   "                              ##                 ##                             ",
   "                              #####################                             ",
   "                                                                                "]

/-- The reference frame as a character grid. -/
def refGrid : List (List Char) := refGridStrings.map String.toList

/-- Modelled from the spec: the standard right-handed rotation matrix about
the X axis ("standard right-handed rotation matrices", spec section 4.1). -/
noncomputable def rotXMat (θ : ℝ) : Matrix (Fin 3) (Fin 3) ℝ :=
  !![1, 0, 0;
     0, Real.cos θ, -Real.sin θ;
     0, Real.sin θ, Real.cos θ]

/-- Modelled from the spec: the standard right-handed rotation matrix about
the Y axis. -/
noncomputable def rotYMat (θ : ℝ) : Matrix (Fin 3) (Fin 3) ℝ :=
  !![Real.cos θ, 0, Real.sin θ;
     0, 1, 0;
     -Real.sin θ, 0, Real.cos θ]

/-- Modelled from the spec: the standard right-handed rotation matrix about
the Z axis. -/
noncomputable def rotZMat (θ : ℝ) : Matrix (Fin 3) (Fin 3) ℝ :=
  !![Real.cos θ, -Real.sin θ, 0;
     Real.sin θ, Real.cos θ, 0;
     0, 0, 1]

/-- A `Vec3 ℝ` as a column vector. -/
def vec3ToFin (v : Vec3 ℝ) : Fin 3 → ℝ := ![v.x, v.y, v.z]

theorem clampI_toNat_le (x : ℤ) (hi : ℕ) : (clampI x 0 ((hi : ℤ) - 1)).toNat ≤ hi - 1 := by
  unfold clampI
  split_ifs <;> omega

theorem project_fst_le (v : Vec3 ℚ) : (project v).1 ≤ WIDTH - 1 := by
  simp only [project]
  exact clampI_toNat_le _ WIDTH

theorem project_snd_le (v : Vec3 ℚ) : (project v).2 ≤ HEIGHT - 1 := by
  simp only [project]
  exact clampI_toNat_le _ HEIGHT

/-- Claim C2: for every (finite) input point, `project` returns a pair
`(screenX, screenY)` with `screenX ∈ [0, WIDTH-1]` and `screenY ∈ [0, HEIGHT-1]`
(lower bounds hold since the results are naturals), computed as
`factor = SCALE / (point.z + DISTANCE)`,
`screenX = point.x * factor + WIDTH/2`, `screenY = point.y * factor + HEIGHT/2`,
each truncated to an integer and clamped into its range. -/
theorem project_formula_and_in_bounds (v : Vec3 ℚ) :
    project v =
      ((clampI (truncQ (v.x * (SCALE / (v.z + DISTANCE)) + (WIDTH : ℚ) / 2)) 0
          ((WIDTH : ℤ) - 1)).toNat,
       (clampI (truncQ (v.y * (SCALE / (v.z + DISTANCE)) + (HEIGHT : ℚ) / 2)) 0
          ((HEIGHT : ℤ) - 1)).toNat) ∧
    (project v).1 ≤ WIDTH - 1 ∧ (project v).2 ≤ HEIGHT - 1 :=
  ⟨rfl, project_fst_le v, project_snd_le v⟩

/-- Claim C8: for every input point whose z-coordinate satisfies
`point.z + DISTANCE = 0`, `project` still returns a clamped coordinate pair
within `[0, WIDTH-1] × [0, HEIGHT-1]` (and, being a total function of the
embedding, does not panic); the conclusion only uses the final clamp, so it
is independent of the value the division produces. -/
theorem project_zero_denominator_in_bounds (v : Vec3 ℚ) (_h : v.z + DISTANCE = 0) :
    (project v).1 ≤ WIDTH - 1 ∧ (project v).2 ≤ HEIGHT - 1 :=
  ⟨project_fst_le v, project_snd_le v⟩

/-- Witness for C8 at the concrete point `(0, 0, -3)`. -/
theorem project_zero_denominator_in_bounds_witness :
    ((⟨0, 0, -3⟩ : Vec3 ℚ).z + DISTANCE = 0) ∧
    ((project ⟨0, 0, -3⟩).1 ≤ WIDTH - 1 ∧ (project ⟨0, 0, -3⟩).2 ≤ HEIGHT - 1) :=
  ⟨by norm_num [DISTANCE],
   project_zero_denominator_in_bounds ⟨0, 0, -3⟩ (by norm_num [DISTANCE])⟩

/-- Claim C6: draining the pending event `(0.1, 0.0)` adds exactly `0.1` to the
x-angle accumulator and leaves the y-angle accumulator unchanged, and in
general each drained event is added componentwise to the accumulators. -/
theorem drain_adds_componentwise (x y : ℚ) (st e : ℚ × ℚ) (evs : List (ℚ × ℚ)) :
    drainEvents (x, y) [(1/10, 0)] = (x + 1/10, y) ∧
    drainEvents st (e :: evs) = drainEvents (st.1 + e.1, st.2 + e.2) evs := by
  constructor
  · simp [drainEvents]
  · rfl

/-- Claim C7: one rotation-delta event is emitted for a read if and only if it
read exactly 3 bytes and they are `0x1B 0x5B` followed by one of
`{0x41, 0x42, 0x43, 0x44}`; every other read (including short reads) emits
nothing. -/
theorem decode_some_iff (n b0 b1 b2 : ℕ) :
    (decode n b0 b1 b2).isSome ↔
      n = 3 ∧ b0 = 27 ∧ b1 = 91 ∧ (b2 = 65 ∨ b2 = 66 ∨ b2 = 67 ∨ b2 = 68) := by
  unfold decode
  split_ifs <;> simp_all

/-- Claim C5: `rotate` with the real sine and cosine equals the application of
the standard right-handed rotation matrix about X, then the one about Y, then
the one about Z, in that order. -/
theorem rotate_eq_standard_matrices (v : Vec3 ℝ) (ax ay az : ℝ) :
    vec3ToFin (rotate Real.sin Real.cos v ax ay az) =
      Matrix.mulVec (rotZMat az)
        (Matrix.mulVec (rotYMat ay) (Matrix.mulVec (rotXMat ax) (vec3ToFin v))) := by
  funext i
  fin_cases i <;>
    simp [vec3ToFin, rotate, rotXMat, rotYMat, rotZMat, Matrix.mulVec,
      Matrix.dotProduct, Fin.sum_univ_three, Matrix.vecHead, Matrix.vecTail] <;> ring

theorem plot_length (screen : List (List Char)) (x y : ℤ) :
    (plot screen x y).length = screen.length := by
  unfold plot
  split_ifs <;> simp

theorem plot_row_length (screen : List (List Char)) (x y : ℤ) (i : ℕ) :
    ((plot screen x y).getD i []).length = (screen.getD i []).length := by
  unfold plot
  split_ifs with hc
  · simp only [List.getD_eq_getElem?_getD, List.getElem?_set]
    by_cases hi : y.toNat = i
    · subst hi
      by_cases hlen : y.toNat < screen.length
      · simp [hlen]
      · have hnone : screen[y.toNat]? = none := List.getElem?_eq_none (by omega)
        simp [hlen, hnone]
    · simp [hi]
  · rfl

theorem getCell_plot_out (screen : List (List Char)) (x y : ℤ) (i j : ℕ)
    (hij : HEIGHT ≤ i ∨ WIDTH ≤ j) :
    getCell (plot screen x y) i j = getCell screen i j := by
  unfold plot
  split_ifs with hc
  · obtain ⟨hx0, hxw, hy0, hyh⟩ := hc
    simp only [WIDTH] at hxw
    simp only [HEIGHT] at hyh
    simp only [WIDTH, HEIGHT] at hij
    unfold getCell
    simp only [List.getD_eq_getElem?_getD, List.getElem?_set]
    by_cases hi : y.toNat = i
    · subst hi
      have hxj : x.toNat ≠ j := by omega
      by_cases hlen : y.toNat < screen.length
      · simp [hlen, List.getElem?_set_ne hxj]
      · have hnone : screen[y.toNat]? = none := List.getElem?_eq_none (by omega)
        simp [hlen, hnone]
    · simp [hi]
  · rfl

theorem bresLoop_preserves (fuel : ℕ) :
    ∀ x0 y0 x1 y1 dx dy sx sy err screen out fx fy,
      bresLoop fuel x0 y0 x1 y1 dx dy sx sy err screen = some (out, fx, fy) →
      out.length = screen.length ∧
      (∀ i, (out.getD i []).length = (screen.getD i []).length) ∧
      (∀ i j, HEIGHT ≤ i ∨ WIDTH ≤ j → getCell out i j = getCell screen i j) := by
  induction fuel with
  | zero =>
    intro x0 y0 x1 y1 dx dy sx sy err screen out fx fy h
    simp [bresLoop] at h
  | succ n ih =>
    intro x0 y0 x1 y1 dx dy sx sy err screen out fx fy h
    simp only [bresLoop] at h
    by_cases hb : x0 = x1 ∧ y0 = y1
    · rw [if_pos hb] at h
      simp only [Option.some.injEq, Prod.mk.injEq] at h
      obtain ⟨ho, -, -⟩ := h
      subst ho
      exact ⟨plot_length screen x0 y0, fun i => plot_row_length screen x0 y0 i,
        fun i j hij => getCell_plot_out screen x0 y0 i j hij⟩
    · rw [if_neg hb] at h
      obtain ⟨l1, l2, l3⟩ := ih _ _ _ _ _ _ _ _ _ _ _ _ _ h
      exact ⟨l1.trans (plot_length screen x0 y0),
        fun i => (l2 i).trans (plot_row_length screen x0 y0 i),
        fun i j hij => (l3 i j hij).trans (getCell_plot_out screen x0 y0 i j hij)⟩

/-- Claim C3: for every pair of endpoint coordinates (inside the screen or
not) and every buffer, every write `draw_line` performs lands inside
`[0, WIDTH-1] × [0, HEIGHT-1]`: the buffer keeps its row count and its row
lengths, and every cell outside that rectangle is left unchanged, because each
plotted coordinate is bounds-checked before the write. -/
theorem draw_line_writes_stay_in_bounds (p0 p1 : ℕ × ℕ) (screen out : List (List Char))
    (fx fy : ℤ) (h : draw_line p0 p1 screen = some (out, fx, fy)) :
    out.length = screen.length ∧
    (∀ i, (out.getD i []).length = (screen.getD i []).length) ∧
    (∀ i j, HEIGHT ≤ i ∨ WIDTH ≤ j → getCell out i j = getCell screen i j) := by
  simp only [draw_line] at h
  exact bresLoop_preserves _ _ _ _ _ _ _ _ _ _ _ _ _ _ h

/-- Witness for C3: a concrete one-cell buffer and a one-point line. -/
theorem draw_line_writes_stay_in_bounds_witness :
    ([['#']] : List (List Char)).length = ([[' ']] : List (List Char)).length ∧
    (∀ i, (([['#']] : List (List Char)).getD i []).length =
      (([[' ']] : List (List Char)).getD i []).length) ∧
    (∀ i j, HEIGHT ≤ i ∨ WIDTH ≤ j →
      getCell [['#']] i j = getCell [[' ']] i j) :=
  draw_line_writes_stay_in_bounds (0, 0) (0, 0) [[' ']] [['#']] 0 0 (by decide)

theorem blankScreen_row (y : ℕ) (hy : y < HEIGHT) :
    blankScreen.getD y [] = List.replicate WIDTH ' ' := by
  unfold blankScreen
  simp [List.getD_eq_getElem?_getD, List.getElem?_replicate, hy]

/-- Claim C9: drawing a degenerate line from an in-bounds point to itself
marks exactly the cell at that point and leaves every other cell blank. -/
theorem draw_line_single_point (x y : ℕ) (hx : x < WIDTH) (hy : y < HEIGHT) :
    ∃ out, draw_line (x, y) (x, y) blankScreen = some (out, (x : ℤ), (y : ℤ)) ∧
      ∀ i j, i < HEIGHT → j < WIDTH →
        getCell out i j = if i = y ∧ j = x then '#' else ' ' := by
  refine ⟨plot blankScreen (x : ℤ) (y : ℤ), ?_, ?_⟩
  · simp [draw_line, bresLoop]
  · intro i j hi hj
    have hg : (0 : ℤ) ≤ (x : ℤ) ∧ (x : ℤ) < ((WIDTH : ℕ) : ℤ) ∧
        (0 : ℤ) ≤ (y : ℤ) ∧ (y : ℤ) < ((HEIGHT : ℕ) : ℤ) :=
      ⟨Int.ofNat_nonneg x, by exact_mod_cast hx, Int.ofNat_nonneg y, by exact_mod_cast hy⟩
    unfold plot
    rw [if_pos hg]
    simp only [Int.toNat_ofNat, blankScreen_row y hy]
    unfold getCell
    by_cases hiy : y = i
    · subst hiy
      have hylen : y < blankScreen.length := by simpa [blankScreen] using hy
      simp only [List.getD_eq_getElem?_getD, List.getElem?_set_self hylen, Option.getD_some]
      by_cases hjx : x = j
      · subst hjx
        have hxlen : x < (List.replicate WIDTH ' ').length := by simpa using hx
        simp [List.getElem?_set_self hxlen]
      · simp [List.getElem?_set_ne hjx, List.getElem?_replicate, hj, Ne.symm hjx]
    · simp only [List.getD_eq_getElem?_getD, List.getElem?_set_ne hiy]
      have hrow : blankScreen[i]? = some (List.replicate WIDTH ' ') := by
        simp [blankScreen, List.getElem?_replicate, hi]
      have hcond : ¬(i = y ∧ j = x) := fun hp => hiy hp.1.symm
      simp [hrow, List.getElem?_replicate, hj, hcond]

/-- Witness for C9 at the concrete point `(3, 5)`. -/
theorem draw_line_single_point_witness :
    3 < WIDTH ∧ 5 < HEIGHT ∧
    ∃ out, draw_line (3, 5) (3, 5) blankScreen = some (out, 3, 5) ∧
      ∀ i j, i < HEIGHT → j < WIDTH →
        getCell out i j = if i = 5 ∧ j = 3 then '#' else ' ' :=
  ⟨by decide, by decide, draw_line_single_point 3 5 (by decide) (by decide)⟩

theorem bresLoop_reaches (x1 y1 a b sx sy : ℤ) (ha : 0 ≤ a) (hb : b ≤ 0)
    (hsx : sx = 1 ∨ sx = -1) (hsy : sy = 1 ∨ sy = -1) :
    ∀ fuel : ℕ, ∀ x0 y0 err : ℤ, ∀ screen : List (List Char),
      0 ≤ sx * (x1 - x0) → sx * (x1 - x0) ≤ a →
      0 ≤ sy * (y1 - y0) → sy * (y1 - y0) ≤ -b →
      err = a + b + b * (a - sx * (x1 - x0)) + a * (-b - sy * (y1 - y0)) →
      sx * (x1 - x0) + sy * (y1 - y0) < (fuel : ℤ) →
      ∃ out, bresLoop fuel x0 y0 x1 y1 a b sx sy err screen = some (out, x1, y1) := by
  intro fuel
  induction fuel with
  | zero =>
    intro x0 y0 err screen hrx0 hrxa hry0 hryb herr hfuel
    exfalso
    simp only [Nat.cast_zero] at hfuel
    linarith
  | succ n ih =>
    intro x0 y0 err screen hrx0 hrxa hry0 hryb herr hfuel
    have hsx2 : sx * sx = 1 := by rcases hsx with h | h <;> rw [h] <;> norm_num
    have hsy2 : sy * sy = 1 := by rcases hsy with h | h <;> rw [h] <;> norm_num
    have hxcase : sx * (x1 - x0) = 0 → x0 = x1 := by
      rcases hsx with h | h <;> rw [h] <;> intro h0 <;> omega
    have hycase : sy * (y1 - y0) = 0 → y0 = y1 := by
      rcases hsy with h | h <;> rw [h] <;> intro h0 <;> omega
    have hstep_x : sx * (x1 - (x0 + sx)) = sx * (x1 - x0) - 1 := by
      linear_combination -1 * hsx2
    have hstep_y : sy * (y1 - (y0 + sy)) = sy * (y1 - y0) - 1 := by
      linear_combination -1 * hsy2
    push_cast at hfuel
    by_cases hend : x0 = x1 ∧ y0 = y1
    · obtain ⟨hx, hy⟩ := hend
      subst hx
      subst hy
      exact ⟨plot screen x0 y0, by simp [bresLoop]⟩
    · -- the loop takes a step; neither exit nor overshoot can happen here
      have contraA : sx * (x1 - x0) = 0 → (2 * err ≥ b) → False := by
        intro hrx hcx
        have hryne : sy * (y1 - y0) ≠ 0 := fun h0 => hend ⟨hxcase hrx, hycase h0⟩
        have h1ry : 1 ≤ sy * (y1 - y0) := by
          rcases lt_or_eq_of_le hry0 with h | h
          · linarith [Int.add_one_le_iff.mpr h]
          · exact absurd h.symm hryne
        have e1 : err = a + b - a * (sy * (y1 - y0)) := by
          rw [hrx] at herr
          linear_combination herr
        have hmul : a * 1 ≤ a * (sy * (y1 - y0)) := mul_le_mul_of_nonneg_left h1ry ha
        have hble : b ≤ -1 := by linarith
        linarith
      have contraB : sy * (y1 - y0) = 0 → (2 * err ≤ a) → False := by
        intro hry hcy
        have hrxne : sx * (x1 - x0) ≠ 0 := fun h0 => hend ⟨hxcase h0, hycase hry⟩
        have h1rx : 1 ≤ sx * (x1 - x0) := by
          rcases lt_or_eq_of_le hrx0 with h | h
          · linarith [Int.add_one_le_iff.mpr h]
          · exact absurd h.symm hrxne
        have e1 : err = a + b - b * (sx * (x1 - x0)) := by
          rw [hry] at herr
          linear_combination herr
        have hmul : b * (sx * (x1 - x0)) ≤ b * 1 := mul_le_mul_of_nonpos_left h1rx hb
        have hage : 1 ≤ a := by linarith
        linarith
      simp only [bresLoop]
      rw [if_neg hend]
      by_cases hcx : 2 * err ≥ b
      · have h1rx : 1 ≤ sx * (x1 - x0) := by
          rcases lt_or_eq_of_le hrx0 with h | h
          · linarith [Int.add_one_le_iff.mpr h]
          · exact absurd (contraA h.symm hcx) not_false
        by_cases hcy : 2 * err ≤ a
        · -- diagonal step
          have h1ry : 1 ≤ sy * (y1 - y0) := by
            rcases lt_or_eq_of_le hry0 with h | h
            · linarith [Int.add_one_le_iff.mpr h]
            · exact absurd (contraB h.symm hcy) not_false
          simp only [if_pos hcx, if_pos hcy]
          refine ih (x0 + sx) (y0 + sy) (err + b + a) (plot screen x0 y0) ?_ ?_ ?_ ?_ ?_ ?_
          · rw [hstep_x]; linarith
          · rw [hstep_x]; linarith
          · rw [hstep_y]; linarith
          · rw [hstep_y]; linarith
          · rw [hstep_x, hstep_y]; linear_combination herr
          · rw [hstep_x, hstep_y]; linarith
        · -- horizontal step only
          simp only [if_pos hcx, if_neg hcy]
          refine ih (x0 + sx) y0 (err + b) (plot screen x0 y0) ?_ ?_ ?_ ?_ ?_ ?_
          · rw [hstep_x]; linarith
          · rw [hstep_x]; linarith
          · exact hry0
          · exact hryb
          · rw [hstep_x]; linear_combination herr
          · rw [hstep_x]; linarith
      · -- vertical step only: the horizontal condition can only fail when the
        -- vertical one holds
        have hcy : 2 * err ≤ a := by
          by_contra hcy
          push_neg at hcx hcy
          linarith
        have h1ry : 1 ≤ sy * (y1 - y0) := by
          rcases lt_or_eq_of_le hry0 with h | h
          · linarith [Int.add_one_le_iff.mpr h]
          · exact absurd (contraB h.symm hcy) not_false
        simp only [if_neg hcx, if_pos hcy]
        refine ih x0 (y0 + sy) (err + a) (plot screen x0 y0) ?_ ?_ ?_ ?_ ?_ ?_
        · exact hrx0
        · exact hrxa
        · rw [hstep_y]; linarith
        · rw [hstep_y]; linarith
        · rw [hstep_y]; linear_combination herr
        · rw [hstep_y]; linarith

/-- Claim C4: for endpoints inside `[0, WIDTH-1] × [0, HEIGHT-1]`, the
`draw_line` loop terminates (the embedded loop returns `some` within its
fuel), and it exits exactly with the cursor at the endpoint `(x1, y1)`. -/
theorem draw_line_terminates (p0 p1 : ℕ × ℕ)
    (h0x : p0.1 < WIDTH) (h0y : p0.2 < HEIGHT) (h1x : p1.1 < WIDTH) (h1y : p1.2 < HEIGHT)
    (screen : List (List Char)) :
    ∃ out, draw_line p0 p1 screen = some (out, (p1.1 : ℤ), (p1.2 : ℤ)) := by
  obtain ⟨x0, y0⟩ := p0
  obtain ⟨x1, y1⟩ := p1
  simp only [draw_line]
  have hsxinit : (if (x0 : ℤ) < (x1 : ℤ) then (1 : ℤ) else -1) * ((x1 : ℤ) - x0) =
      |(x1 : ℤ) - x0| := by
    split_ifs with h
    · rw [abs_of_nonneg (by linarith)]; ring
    · rw [abs_of_nonpos (by linarith)]; ring
  have hsyinit : (if (y0 : ℤ) < (y1 : ℤ) then (1 : ℤ) else -1) * ((y1 : ℤ) - y0) =
      |(y1 : ℤ) - y0| := by
    split_ifs with h
    · rw [abs_of_nonneg (by linarith)]; ring
    · rw [abs_of_nonpos (by linarith)]; ring
  refine bresLoop_reaches (x1 : ℤ) (y1 : ℤ) |(x1 : ℤ) - x0| (-|(y1 : ℤ) - y0|)
    _ _ (abs_nonneg _) (neg_nonpos.mpr (abs_nonneg _))
    (by split_ifs <;> simp) (by split_ifs <;> simp)
    ((|(x1 : ℤ) - x0| - -|(y1 : ℤ) - y0| + 1).toNat) (x0 : ℤ) (y0 : ℤ) _ screen
    ?_ ?_ ?_ ?_ ?_ ?_
  · rw [hsxinit]; exact abs_nonneg _
  · rw [hsxinit]
  · rw [hsyinit]; exact abs_nonneg _
  · rw [hsyinit, neg_neg]
  · rw [hsxinit, hsyinit]; ring
  · rw [hsxinit, hsyinit,
      Int.toNat_of_nonneg (by linarith [abs_nonneg ((x1 : ℤ) - x0), abs_nonneg ((y1 : ℤ) - y0)])]
    linarith

/-- Witness for C4: the full-screen diagonal on the blank buffer. -/
theorem draw_line_terminates_witness :
    (((0, 0) : ℕ × ℕ).1 < WIDTH ∧ ((0, 0) : ℕ × ℕ).2 < HEIGHT ∧
      ((79, 23) : ℕ × ℕ).1 < WIDTH ∧ ((79, 23) : ℕ × ℕ).2 < HEIGHT) ∧
    ∃ out, draw_line (0, 0) (79, 23) blankScreen = some (out, 79, 23) :=
  ⟨⟨by decide, by decide, by decide, by decide⟩,
   draw_line_terminates (0, 0) (79, 23) (by decide) (by decide) (by decide) (by decide)
     blankScreen⟩

theorem truncQ_intCast (n : ℤ) : truncQ (n : ℚ) = n := by
  simp [truncQ, Rat.num_intCast, Rat.den_intCast, Int.tdiv_one]

theorem project_eval (v : Vec3 ℚ) (a b : ℤ)
    (hva : v.x * (SCALE / (v.z + DISTANCE)) + (WIDTH : ℚ) / 2 = (a : ℚ))
    (hvb : v.y * (SCALE / (v.z + DISTANCE)) + (HEIGHT : ℚ) / 2 = (b : ℚ)) :
    project v = ((clampI a 0 ((WIDTH : ℤ) - 1)).toNat,
      (clampI b 0 ((HEIGHT : ℤ) - 1)).toNat) := by
  simp only [project, hva, hvb, truncQ_intCast]

theorem rotate_zero {α : Type} [Ring α] (s c : α → α) (hs : s 0 = 0) (hc : c 0 = 1)
    (v : Vec3 α) : rotate s c v 0 0 0 = v := by
  cases v
  simp [rotate, hs, hc]

theorem project_cube0 : project ⟨-CUBE_SIZE, -CUBE_SIZE, -CUBE_SIZE⟩ = (30, 2) := by
  rw [project_eval _ 30 2 (by norm_num [CUBE_SIZE, WIDTH, SCALE, DISTANCE])
    (by norm_num [CUBE_SIZE, HEIGHT, SCALE, DISTANCE])]
  decide

theorem project_cube1 : project ⟨CUBE_SIZE, -CUBE_SIZE, -CUBE_SIZE⟩ = (50, 2) := by
  rw [project_eval _ 50 2 (by norm_num [CUBE_SIZE, WIDTH, SCALE, DISTANCE])
    (by norm_num [CUBE_SIZE, HEIGHT, SCALE, DISTANCE])]
  decide

theorem project_cube2 : project ⟨CUBE_SIZE, CUBE_SIZE, -CUBE_SIZE⟩ = (50, 22) := by
  rw [project_eval _ 50 22 (by norm_num [CUBE_SIZE, WIDTH, SCALE, DISTANCE])
    (by norm_num [CUBE_SIZE, HEIGHT, SCALE, DISTANCE])]
  decide

theorem project_cube3 : project ⟨-CUBE_SIZE, CUBE_SIZE, -CUBE_SIZE⟩ = (30, 22) := by
  rw [project_eval _ 30 22 (by norm_num [CUBE_SIZE, WIDTH, SCALE, DISTANCE])
    (by norm_num [CUBE_SIZE, HEIGHT, SCALE, DISTANCE])]
  decide

theorem project_cube4 : project ⟨-CUBE_SIZE, -CUBE_SIZE, CUBE_SIZE⟩ = (35, 7) := by
  rw [project_eval _ 35 7 (by norm_num [CUBE_SIZE, WIDTH, SCALE, DISTANCE])
    (by norm_num [CUBE_SIZE, HEIGHT, SCALE, DISTANCE])]
  decide

theorem project_cube5 : project ⟨CUBE_SIZE, -CUBE_SIZE, CUBE_SIZE⟩ = (45, 7) := by
  rw [project_eval _ 45 7 (by norm_num [CUBE_SIZE, WIDTH, SCALE, DISTANCE])
    (by norm_num [CUBE_SIZE, HEIGHT, SCALE, DISTANCE])]
  decide

theorem project_cube6 : project ⟨CUBE_SIZE, CUBE_SIZE, CUBE_SIZE⟩ = (45, 17) := by
  rw [project_eval _ 45 17 (by norm_num [CUBE_SIZE, WIDTH, SCALE, DISTANCE])
    (by norm_num [CUBE_SIZE, HEIGHT, SCALE, DISTANCE])]
  decide

theorem project_cube7 : project ⟨-CUBE_SIZE, CUBE_SIZE, CUBE_SIZE⟩ = (35, 17) := by
  rw [project_eval _ 35 17 (by norm_num [CUBE_SIZE, WIDTH, SCALE, DISTANCE])
    (by norm_num [CUBE_SIZE, HEIGHT, SCALE, DISTANCE])]
  decide

set_option maxRecDepth 100000 in
/-- Claim C1: with rotation state fixed at `(0, 0)` (hence derived z-angle
`0`), rotating and projecting the 8 cube vertices yields the precomputed
screen coordinates, and rasterizing the 12 edges between them into a blank
`WIDTH × HEIGHT` buffer reproduces the reference grid cell-for-cell.  Stated
for any model of sine and cosine that is exact at `0`, as `f32` is. -/
theorem pipeline_at_zero (s c : ℚ → ℚ) (hs : s 0 = 0) (hc : c 0 = 1) :
    projectedPts s c 0 0 =
      [(30, 2), (50, 2), (50, 22), (30, 22), (35, 7), (45, 7), (45, 17), (35, 17)] ∧
    frame s c 0 0 = some refGrid := by
  have haz : (0 : ℚ) * (1/2) + 0 * (1/2) = 0 := by norm_num
  have hpts : projectedPts s c 0 0 =
      [(30, 2), (50, 2), (50, 22), (30, 22), (35, 7), (45, 7), (45, 17), (35, 17)] := by
    simp only [projectedPts]
    rw [haz]
    simp only [cube, List.map_cons, List.map_nil, rotate_zero s c hs hc,
      project_cube0, project_cube1, project_cube2, project_cube3,
      project_cube4, project_cube5, project_cube6, project_cube7]
  refine ⟨hpts, ?_⟩
  show render (projectedPts s c 0 0) = some refGrid
  rw [hpts]
  decide

/-- Witness for C1: the exact-at-zero sine and cosine models `fun _ => 0`
and `fun _ => 1`. -/
theorem pipeline_at_zero_witness :
    ((fun _ : ℚ => (0 : ℚ)) 0 = 0 ∧ (fun _ : ℚ => (1 : ℚ)) 0 = 1) ∧
    (projectedPts (fun _ => 0) (fun _ => 1) 0 0 =
        [(30, 2), (50, 2), (50, 22), (30, 22), (35, 7), (45, 7), (45, 17), (35, 17)] ∧
      frame (fun _ => 0) (fun _ => 1) 0 0 = some refGrid) :=
  ⟨⟨rfl, rfl⟩, pipeline_at_zero (fun _ => 0) (fun _ => 1) rfl rfl⟩

end RustyCubes
